import Mathlib

/-!
Shallow embedding of aktualizr's crypto layer
(src/libaktualizr/crypto/crypto.cc).

C++ std::string values (both text and raw byte buffers) are modelled as
lists of characters; a byte is a character whose code point is below 256.
External library primitives (OpenSSL RSA operations, libsodium Ed25519 and
SHA functions, the base64 and canonical-JSON helpers from Utils) are
bundled in the ExtCrypto structure of abstract functions; everything the
repository's own code computes (dispatch, hex encode and decode via boost,
the shortTag fold, JSON field lookup, X509 subject assembly, the 64 KiB
streaming loop) is defined concretely below, translated from the source.
-/

/-- Strings and byte buffers, as in C++ std::string. -/
abbrev Str := List Char

/-- ASCII lower-casing of one character, as C tolower in the C locale. -/
def asciiToLower (c : Char) : Char :=
  if 'A' ≤ c ∧ c ≤ 'Z' then Char.ofNat (c.toNat + 32) else c

/-- ASCII upper-casing of one character, as C toupper in the C locale. -/
def asciiToUpper (c : Char) : Char :=
  if 'a' ≤ c ∧ c ≤ 'z' then Char.ofNat (c.toNat - 32) else c

/-- Lower-casing of a whole string (std::transform with tolower,
boost to_lower). -/
def toLowerStr (s : Str) : Str := s.map asciiToLower

/-- Upper-casing of a whole string (boost to_upper_copy). -/
def toUpperStr (s : Str) : Str := s.map asciiToUpper

/-- Uppercase hexadecimal digits used by boost::algorithm::hex. -/
def hexDigits : Str := ("0123456789ABCDEF").toList

/-- Hex encoding of one byte: two uppercase digits
(boost::algorithm::hex on one char). -/
def hexEncChar (c : Char) : Str :=
  [hexDigits.getD (c.toNat / 16 % 16) '0', hexDigits.getD (c.toNat % 16) '0']

/-- Hex encoding of a byte string (boost::algorithm::hex). -/
def hexEnc (s : Str) : Str := (s.map hexEncChar).flatten

/-- Value of one hexadecimal digit; none for a non-hex character
(boost::algorithm::detail::hex_char_to_int, which throws non_hex_input). -/
def hexDigitVal (c : Char) : Option Nat :=
  if '0' ≤ c ∧ c ≤ '9' then some (c.toNat - ('0').toNat)
  else if 'a' ≤ c ∧ c ≤ 'f' then some (c.toNat - ('a').toNat + 10)
  else if 'A' ≤ c ∧ c ≤ 'F' then some (c.toNat - ('A').toNat + 10)
  else none

/-- Hex decoding (boost::algorithm::unhex).  The C++ function throws
non_hex_input on a non-hex character and not_enough_input on an odd-length
input; both failure modes are modelled as none. -/
def unhex : Str → Option Str
  | [] => some []
  | [_] => none
  | a :: b :: rest =>
    match hexDigitVal a, hexDigitVal b, unhex rest with
    | some x, some y, some r => some (Char.ofNat (16 * x + y) :: r)
    | _, _, _ => none

/-- Key type enumeration from libaktualizr/types.h, as used by crypto.cc. -/
inductive KeyType where
  | kRSA2048
  | kRSA3072
  | kRSA4096
  | kED25519
  | kUnknown
deriving DecidableEq

/-- Hash algorithm enumeration (Hash::Type): kSha256 = 0, kSha512 = 1,
kUnknownAlgorithm = 2 in the C++ enum. -/
inductive HashType where
  | kSha256
  | kSha512
  | kUnknownAlgorithm
deriving DecidableEq

/-- Integer value of the C++ enum Hash::Type, used by operator< in
Hash::shortTag. -/
def HashType.toOrd : HashType → Nat
  | .kSha256 => 0
  | .kSha512 => 1
  | .kUnknownAlgorithm => 2

/-- Hash value: (algorithm, hex digest) pair. -/
structure Hash where
  type_ : HashType
  hash_ : Str
deriving DecidableEq

/-- Hash constructor from a raw type enum; the digest is stored
upper-cased (boost to_upper_copy in the initializer). -/
def Hash.ofType (t : HashType) (hash : Str) : Hash := ⟨t, toUpperStr hash⟩

/-- Hash constructor from an algorithm-name string: sha512 and sha256 are
recognized, anything else gives kUnknownAlgorithm; the digest is stored
upper-cased. -/
def Hash.ofStr (type hash : Str) : Hash :=
  ⟨if type = ("sha512").toList then HashType.kSha512
   else if type = ("sha256").toList then HashType.kSha256
   else HashType.kUnknownAlgorithm,
   toUpperStr hash⟩

/-- Loop of Hash::shortTag: scan the vector keeping the entry with the
smallest enum ordinal seen so far; res.assign(hash, 0, 12) keeps the first
12 characters. -/
def shortTagLoop : List Hash → HashType → Str → Str
  | [], _, res => res
  | i :: rest, best, res =>
    if i.type_.toOrd < best.toOrd then shortTagLoop rest i.type_ (i.hash_.take 12)
    else shortTagLoop rest best res

/-- Hash::shortTag: start from (kUnknownAlgorithm, "(unknown)"), scan for
the lowest-ordinal algorithm, lower-case the result. -/
def Hash.shortTag (hashes : List Hash) : Str :=
  toLowerStr (shortTagLoop hashes HashType.kUnknownAlgorithm (("(unknown)").toList))

/-- Minimal JSON value model for the Json::Value shapes crypto.cc consumes
and produces. -/
inductive Json where
  | null
  | str (s : Str)
  | num (n : Int)
  | bool (b : Bool)
  | arr (elems : List Json)
  | obj (fields : List (Str × Json))

/-- Field lookup in an object's field list; missing keys give null, as
JsonCpp's const operator[] does. -/
def jsonLookup : List (Str × Json) → Str → Json
  | [], _ => Json.null
  | (k, v) :: rest, key => if k = key then v else jsonLookup rest key

/-- Indexing a Json value by key (const Json::Value::operator[]): null
for a non-object or a missing key. -/
def Json.get : Json → Str → Json
  | Json.obj fields, key => jsonLookup fields key
  | _, _ => Json.null

/-- Json::Value::isString. -/
def Json.isString : Json → Bool
  | Json.str _ => true
  | _ => false

/-- Json::Value::isObject. -/
def Json.isObject : Json → Bool
  | Json.obj _ => true
  | _ => false

/-- Json::Value::asString; the shapes reaching it in crypto.cc are
strings, other shapes collapse to the empty string. -/
def Json.asString : Json → Str
  | Json.str s => s
  | _ => []

/-- Exceptions that crypto.cc can let escape, by C++ exception kind. -/
inductive CryptoErr where
  | hexDecodeError
  | invalidArgument
  | runtimeError
  | assertFailure
deriving DecidableEq

/-- External cryptographic primitives: the OpenSSL, libsodium and Utils
functions that crypto.cc calls.  K is the type of parsed OpenSSL RSA key
objects; rsaBits gives a key's modulus bit length, from which RSA_size is
computed as the modulus byte length. -/
structure ExtCrypto where
  K : Type
  sha256 : Str → Str
  sha512 : Str → Str
  edSign : Str → Str → Str
  edVerify : Str → Str → Str → Bool
  fromBase64 : Str → Str
  toBase64 : Str → Str
  canonJson : Json → Str
  parsePrivPEM : Str → Option K
  engineLoadKey : Str → Option K
  parsePubPEM : Str → Option K
  rsaBits : K → Nat
  padAddPSS : K → Str → Int → Option Str
  privEncrypt : K → Str → Option Str
  pubDecrypt : K → Str → Option Str
  verifyPSS : K → Str → Str → Int → Bool

/-- OpenSSL RSA_size: the modulus length in bytes. -/
def rsaSize (E : ExtCrypto) (k : E.K) : Nat := (E.rsaBits k + 7) / 8

/-- Crypto::IsRsaKeyType. -/
def Crypto.IsRsaKeyType : KeyType → Bool
  | KeyType.kRSA2048 => true
  | KeyType.kRSA3072 => true
  | KeyType.kRSA4096 => true
  | _ => false

/-- Crypto::IdentifyRSAKeyType: parse the PEM public key, compute
RSA_size times 8, map 2048, 3072 and 4096 to the corresponding key type,
anything else (and a parse failure) to kUnknown. -/
def Crypto.IdentifyRSAKeyType (E : ExtCrypto) (public_key_pem : Str) : KeyType :=
  match E.parsePubPEM public_key_pem with
  | none => KeyType.kUnknown
  | some rsa =>
    let key_length := rsaSize E rsa * 8
    if key_length = 2048 then KeyType.kRSA2048
    else if key_length = 3072 then KeyType.kRSA3072
    else if key_length = 4096 then KeyType.kRSA4096
    else KeyType.kUnknown

/-- PublicKey: stored value string and declared type. -/
structure PublicKey where
  value_ : Str
  type_ : KeyType
deriving DecidableEq

/-- PublicKey constructor from Uptane metadata JSON: wrong JSON shapes
give kUnknown (with value left default-empty, as the C++ early returns
leave the member); the keytype string is lower-cased, ed25519 and rsa are
recognized, rsa values are classified by IdentifyRSAKeyType. -/
def PublicKey.fromUptaneJson (E : ExtCrypto) (uptane_json : Json) : PublicKey :=
  if !(uptane_json.get (("keytype").toList)).isString then ⟨[], KeyType.kUnknown⟩
  else if !(uptane_json.get (("keyval").toList)).isObject then ⟨[], KeyType.kUnknown⟩
  else if !((uptane_json.get (("keyval").toList)).get (("public").toList)).isString then
    ⟨[], KeyType.kUnknown⟩
  else
    let keytype := toLowerStr ((uptane_json.get (("keytype").toList)).asString)
    let keyvalue := ((uptane_json.get (("keyval").toList)).get (("public").toList)).asString
    let type :=
      if keytype = ("ed25519").toList then KeyType.kED25519
      else if keytype = ("rsa").toList then Crypto.IdentifyRSAKeyType E keyvalue
      else KeyType.kUnknown
    ⟨keyvalue, type⟩

/-- PublicKey::ToUptane.  The C++ default branch throws range_error but is
unreachable: the five-value enum is matched exhaustively. -/
def PublicKey.ToUptane (pk : PublicKey) : Json :=
  let keytype : Str :=
    match pk.type_ with
    | KeyType.kRSA2048 => ("RSA").toList
    | KeyType.kRSA3072 => ("RSA").toList
    | KeyType.kRSA4096 => ("RSA").toList
    | KeyType.kED25519 => ("ED25519").toList
    | KeyType.kUnknown => ("unknown").toList
  Json.obj [(("keytype").toList, Json.str keytype),
            (("keyval").toList, Json.obj [(("public").toList, Json.str pk.value_)])]

/-- Trailing-newline stripping in PublicKey::KeyId
(boost trim_right_if with is_any_of of a newline). -/
def stripTrailingNewlines (s : Str) : Str :=
  (s.reverse.dropWhile (fun c => c = '\n')).reverse

/-- PublicKey::KeyId: lowercase hex of the SHA-256 digest of the
canonical-JSON encoding of the stored value with trailing newlines
stripped first. -/
def PublicKey.KeyId (E : ExtCrypto) (pk : PublicKey) : Str :=
  let key_content := stripTrailingNewlines pk.value_
  toLowerStr (hexEnc (E.sha256 (E.canonJson (Json.str key_content))))

/-- Value of crypto_sign_PUBLICKEYBYTES in libsodium. -/
def cryptoSignPublicKeyBytes : Nat := 32

/-- Value of crypto_sign_BYTES in libsodium. -/
def cryptoSignBytes : Nat := 64

/-- Crypto::ED25519Sign: crypto_sign_detached over the raw secret key. -/
def Crypto.ED25519Sign (E : ExtCrypto) (private_key message : Str) : Str :=
  E.edSign private_key message

/-- Crypto::ED25519Verify: short public keys or signatures fail
immediately, otherwise crypto_sign_verify_detached decides. -/
def Crypto.ED25519Verify (E : ExtCrypto) (public_key signature message : Str) : Bool :=
  if public_key.length < cryptoSignPublicKeyBytes ∨ signature.length < cryptoSignBytes then false
  else E.edVerify signature message public_key

/-- Crypto::RSAPSSSign: load the private key from an engine handle or
parse it from PEM (empty result on failure), digest the message with
SHA-256, add PKCS1-PSS padding with salt length -1 (maximum for the key),
then apply the raw RSA private-key transform; every OpenSSL failure
yields the empty string. -/
def Crypto.RSAPSSSign (E : ExtCrypto) (useEngine : Bool) (private_key message : Str) : Str :=
  let keyOpt := if useEngine then E.engineLoadKey private_key else E.parsePrivPEM private_key
  match keyOpt with
  | none => []
  | some rsa =>
    let digest := E.sha256 message
    match E.padAddPSS rsa digest (-1) with
    | none => []
    | some em =>
      match E.privEncrypt rsa em with
      | none => []
      | some signature => signature

/-- Crypto::Sign: Ed25519 keys are hex-decoded (boost unhex, which throws
on malformed hex) and signed with ED25519Sign; every other key type is
sent to the RSA-PSS path. -/
def Crypto.Sign (E : ExtCrypto) (key_type : KeyType) (useEngine : Bool)
    (private_key message : Str) : Except CryptoErr Str :=
  if key_type = KeyType.kED25519 then
    match unhex private_key with
    | none => Except.error CryptoErr.hexDecodeError
    | some sk => Except.ok (Crypto.ED25519Sign E sk message)
  else Except.ok (Crypto.RSAPSSSign E useEngine private_key message)

/-- Crypto::RSAPSSVerify: parse the PEM public key (false on failure),
apply the raw RSA public-key transform to the signature (false on
failure), then run PKCS1-PSS verification against the SHA-256 digest of
the message with salt length -2 (recovered from the signature). -/
def Crypto.RSAPSSVerify (E : ExtCrypto) (public_key signature message : Str) : Bool :=
  match E.parsePubPEM public_key with
  | none => false
  | some rsa =>
    match E.pubDecrypt rsa signature with
    | none => false
    | some decrypted => E.verifyPSS rsa (E.sha256 message) decrypted (-2)

/-- PublicKey::VerifySignature: dispatch on the stored key type.  The
stored value of an Ed25519 key is hex-decoded with boost unhex, which
throws on a malformed value; the signature is base64-decoded with
Utils::fromBase64 (modelled as a total external function). -/
def PublicKey.VerifySignature (E : ExtCrypto) (pk : PublicKey)
    (signature message : Str) : Except CryptoErr Bool :=
  match pk.type_ with
  | KeyType.kED25519 =>
    match unhex pk.value_ with
    | none => Except.error CryptoErr.hexDecodeError
    | some raw =>
      Except.ok (Crypto.ED25519Verify E raw (E.fromBase64 signature) message)
  | KeyType.kRSA2048 =>
    Except.ok (Crypto.RSAPSSVerify E pk.value_ (E.fromBase64 signature) message)
  | KeyType.kRSA3072 =>
    Except.ok (Crypto.RSAPSSVerify E pk.value_ (E.fromBase64 signature) message)
  | KeyType.kRSA4096 =>
    Except.ok (Crypto.RSAPSSVerify E pk.value_ (E.fromBase64 signature) message)
  | KeyType.kUnknown => Except.ok false

/-- Incremental SHA-256 hasher; the libsodium state is modelled by the
byte sequence absorbed so far, and finalization applies SHA-256 to it. -/
structure MultiPartSHA256Hasher where
  fed : Str

/-- Modelled from the spec: MultiPartSHA256Hasher::update (declared in
crypto.h, not under src/) appends the given bytes to the running digest
state. -/
def MultiPartSHA256Hasher.update (h : MultiPartSHA256Hasher) (part : Str) :
    MultiPartSHA256Hasher := ⟨h.fed ++ part⟩

/-- MultiPartSHA256Hasher::getHexDigest: finalize and hex-encode
(boost::algorithm::hex, uppercase). -/
def MultiPartSHA256Hasher.getHexDigest (E : ExtCrypto) (h : MultiPartSHA256Hasher) : Str :=
  hexEnc (E.sha256 h.fed)

/-- Modelled from the spec: MultiPartSHA256Hasher::getHash (declared in
crypto.h, not under src/) finalizes and returns the Hash value for the
absorbed content. -/
def MultiPartSHA256Hasher.getHash (E : ExtCrypto) (h : MultiPartSHA256Hasher) : Hash :=
  Hash.ofType HashType.kSha256 (h.getHexDigest E)

/-- Incremental SHA-512 hasher, modelled like the SHA-256 one. -/
structure MultiPartSHA512Hasher where
  fed : Str

/-- Modelled from the spec: MultiPartSHA512Hasher::update (declared in
crypto.h, not under src/) appends the given bytes to the running digest
state. -/
def MultiPartSHA512Hasher.update (h : MultiPartSHA512Hasher) (part : Str) :
    MultiPartSHA512Hasher := ⟨h.fed ++ part⟩

/-- MultiPartSHA512Hasher::getHexDigest: finalize and hex-encode. -/
def MultiPartSHA512Hasher.getHexDigest (E : ExtCrypto) (h : MultiPartSHA512Hasher) : Str :=
  hexEnc (E.sha512 h.fed)

/-- Modelled from the spec: MultiPartSHA512Hasher::getHash (declared in
crypto.h, not under src/) finalizes and returns the Hash value for the
absorbed content. -/
def MultiPartSHA512Hasher.getHash (E : ExtCrypto) (h : MultiPartSHA512Hasher) : Hash :=
  Hash.ofType HashType.kSha512 (h.getHexDigest E)

/-- Block size of the streaming Hash::generate: 64 KiB. -/
def hashBlockSize : Nat := 64 * 1024

/-- Read loop of the streaming Hash::generate: source.read fills at most
one 64 KiB block, gcount is the number of characters obtained, the block
is fed to the hasher and the loop repeats while gcount is positive.  The
stream is modelled by its remaining byte sequence; the result is the full
absorbed sequence and the total byte count. -/
def hashStreamLoop (rem fed : Str) (count : Nat) : Str × Nat :=
  let gcount := min hashBlockSize rem.length
  let fed2 := fed ++ rem.take hashBlockSize
  let count2 := count + gcount
  if h : 0 < gcount then hashStreamLoop (rem.drop hashBlockSize) fed2 count2
  else (fed2, count2)
termination_by rem.length
decreasing_by
  simp only [List.length_drop]
  omega

/-- One-shot Hash::generate: hex of the digest, upper-cased by the Hash
constructor; an unsupported type throws invalid_argument. -/
def Hash.generate (E : ExtCrypto) (type : HashType) (data : Str) : Except CryptoErr Hash :=
  match type with
  | HashType.kSha256 => Except.ok (Hash.ofType HashType.kSha256 (hexEnc (E.sha256 data)))
  | HashType.kSha512 => Except.ok (Hash.ofType HashType.kSha512 (hexEnc (E.sha512 data)))
  | HashType.kUnknownAlgorithm => Except.error CryptoErr.invalidArgument

/-- Streaming Hash::generate: create the hasher for the type (throwing
invalid_argument for an unsupported one), absorb the stream in 64 KiB
blocks, report the total bytes read, and return the finalized Hash. -/
def Hash.generateFromStream (E : ExtCrypto) (type : HashType) (source : Str) :
    Except CryptoErr (Hash × Nat) :=
  match type with
  | HashType.kSha256 =>
    let r := hashStreamLoop source [] 0
    Except.ok ((MultiPartSHA256Hasher.mk r.1).getHash E, r.2)
  | HashType.kSha512 =>
    let r := hashStreamLoop source [] 0
    Except.ok ((MultiPartSHA512Hasher.mk r.1).getHash E, r.2)
  | HashType.kUnknownAlgorithm => Except.error CryptoErr.invalidArgument

/-- X.509 certificate handle as far as the claims observe it: the subject
entries in insertion order plus the remaining generateCert parameters. -/
structure X509Cert where
  version : Nat
  subject : List (Str × Str)
  validityDays : Int
  selfSigned : Bool
deriving DecidableEq

/-- External OpenSSL calls made by Crypto::generateCert whose success
depends on the inputs: X509_NAME_add_entry_by_txt (which rejects, e.g.,
subject strings violating the ASN.1 string table's length bounds for the
field), the RNG seeding plus RSA_generate_key_ex inside
generateRSAKeyPairEVP, and the self-signing X509_sign. -/
structure ExtX509 where
  addEntryOk : Str → Str → Bool
  keyGenOk : Int → Bool
  signOk : Bool

/-- Subject name assembled by Crypto::generateCert: X509_NAME entries in
insertion order, each optional field added only when non-empty, the
common name last. -/
def certSubject (cert_c cert_st cert_o cert_cn : Str) : List (Str × Str) :=
  let subj0 : List (Str × Str) := []
  let subj1 := if cert_c ≠ [] then subj0 ++ [(("C").toList, cert_c)] else subj0
  let subj2 := if cert_st ≠ [] then subj1 ++ [(("ST").toList, cert_st)] else subj1
  let subj3 := if cert_o ≠ [] then subj2 ++ [(("O").toList, cert_o)] else subj2
  subj3 ++ [(("CN").toList, cert_cn)]

/-- Crypto::generateCert: optional subject fields C, ST and O are added
only when non-empty, each through X509_NAME_add_entry_by_txt whose
failure throws runtime_error; the mandatory common name is guarded by
assert(!cert_cn.empty()), modelled as a fatal failure, and then added the
same way; the embedded key generation (generateRSAKeyPairEVP) throws for
a bit size below 31 and on RNG or generation failure; with self_sign the
final X509_sign failure also throws.  Serial number and validity instants
are external OpenSSL effects not observed by the claims. -/
def Crypto.generateCert (X : ExtX509) (rsa_bits cert_days : Int)
    (cert_c cert_st cert_o cert_cn : Str) (self_sign : Bool) : Except CryptoErr X509Cert :=
  if cert_c ≠ [] ∧ X.addEntryOk (("C").toList) cert_c = false then
    Except.error CryptoErr.runtimeError
  else if cert_st ≠ [] ∧ X.addEntryOk (("ST").toList) cert_st = false then
    Except.error CryptoErr.runtimeError
  else if cert_o ≠ [] ∧ X.addEntryOk (("O").toList) cert_o = false then
    Except.error CryptoErr.runtimeError
  else if cert_cn = [] then Except.error CryptoErr.assertFailure
  else if X.addEntryOk (("CN").toList) cert_cn = false then
    Except.error CryptoErr.runtimeError
  else if rsa_bits < 31 then Except.error CryptoErr.runtimeError
  else if X.keyGenOk rsa_bits = false then Except.error CryptoErr.runtimeError
  else if self_sign ∧ X.signOk = false then Except.error CryptoErr.runtimeError
  else Except.ok { version := 2, subject := certSubject cert_c cert_st cert_o cert_cn,
                   validityDays := cert_days, selfSigned := self_sign }

/-- Uptane key JSON of the shape crypto.cc consumes, with a given keytype
string and public key value. -/
def mkKeyJson (kt v : Str) : Json :=
  Json.obj [(("keytype").toList, Json.str kt),
            (("keyval").toList, Json.obj [(("public").toList, Json.str v)])]

/-- Concrete instantiation of the external primitives, used to evaluate
the parametric theorems on explicit inputs.  RSA key objects are plain
modulus bit counts; the toy PSS padding tags the digest, the toy raw RSA
transform tags the padded block, and the toy Ed25519 verifier accepts
exactly the signature that the toy signer produces for the empty message
under the sample key pair. -/
def sampleExt : ExtCrypto where
  K := Nat
  sha256 := fun s => s
  sha512 := fun s => s
  edSign := fun _ _ => List.replicate 64 'S'
  edVerify := fun sig msg pk =>
    (sig == List.replicate 64 'S') && (msg == ([] : Str)) && (pk == List.replicate 32 'k')
  fromBase64 := fun s => s
  toBase64 := fun s => s
  canonJson := fun j => j.asString
  parsePrivPEM := fun s => if s = ("priv").toList then some 2048 else none
  engineLoadKey := fun _ => none
  parsePubPEM := fun s =>
    if s = ("pub").toList then some 2048
    else if s = ("pem2047").toList then some 2047
    else if s = ("pem1024").toList then some 1024
    else none
  rsaBits := fun k => k
  padAddPSS := fun _ d _ => some ('P' :: d)
  privEncrypt := fun _ em => some ('E' :: em)
  pubDecrypt := fun _ sig =>
    match sig with
    | 'E' :: r => some r
    | _ => none
  verifyPSS := fun _ d em _ => em == 'P' :: d

/-- Sample raw Ed25519 public key: 32 bytes. -/
def samplePk : Str := List.replicate 32 'k'

/-- Sample hex-encoded Ed25519 public key, as stored in PublicKey. -/
def samplePkHex : Str := hexEnc samplePk

/-- Sample raw Ed25519 secret key. -/
def sampleSk : Str := List.replicate 32 's'

/-- Sample hex-encoded Ed25519 secret key, as passed to Crypto::Sign. -/
def sampleSkHex : Str := hexEnc sampleSk

/-- Concrete instantiation of the external X.509 calls: subject entry
addition succeeds up to a 64-character value, key generation succeeds up
to 4096 bits, self-signing succeeds. -/
def sampleX509 : ExtX509 where
  addEntryOk := fun _ v => decide (v.length ≤ 64)
  keyGenOk := fun bits => decide (bits ≤ 4096)
  signOk := true

theorem dropWhile_replicate_append (p : Char → Bool) (c : Char) (hp : p c = true)
    (n : Nat) (l : Str) : (List.replicate n c ++ l).dropWhile p = l.dropWhile p := by
  induction n with
  | zero => simp
  | succ n ih => simp [List.replicate_succ, List.dropWhile_cons, hp, ih]

theorem stripTrailingNewlines_append (v : Str) (n : Nat) :
    stripTrailingNewlines (v ++ List.replicate n '\n') = stripTrailingNewlines v := by
  unfold stripTrailingNewlines
  rw [List.reverse_append, List.reverse_replicate,
      dropWhile_replicate_append _ '\n' (by decide)]

/-- C7: PublicKey::KeyId strips trailing newline characters before
fingerprinting, so a value with any number of trailing newlines (in
particular a single one) fingerprints identically to the value without
them; and the fingerprint depends only on the stored value (the same
stored value always yields the same fingerprint, whatever the declared
key type). -/
theorem keyId_newline_insensitive :
    ∀ (E : ExtCrypto) (v : Str) (t : KeyType) (n : Nat),
      PublicKey.KeyId E ⟨v ++ List.replicate n '\n', t⟩ = PublicKey.KeyId E ⟨v, t⟩
      ∧ ∀ t2 : KeyType, PublicKey.KeyId E ⟨v, t⟩ = PublicKey.KeyId E ⟨v, t2⟩ := by
  intro E v t n
  constructor
  · unfold PublicKey.KeyId
    rw [stripTrailingNewlines_append]
  · intro t2
    rfl

/-- C10: Crypto::Sign sends every key type other than ED25519, including
kUnknown, to the RSA-PSS signing path rather than rejecting the type;
with a null engine and a private key that does not parse as RSA PEM, a
kUnknown sign call returns the empty string instead of failing on the
type. -/
theorem sign_dispatches_rsa_for_non_ed25519 :
    ∀ (E : ExtCrypto) (kt : KeyType) (useEngine : Bool) (sk msg : Str),
      (kt ≠ KeyType.kED25519 →
        Crypto.Sign E kt useEngine sk msg
          = Except.ok (Crypto.RSAPSSSign E useEngine sk msg))
      ∧ (E.parsePrivPEM sk = none →
        Crypto.Sign E KeyType.kUnknown false sk msg = Except.ok []) := by
  intro E kt ue sk msg
  constructor
  · intro h
    simp [Crypto.Sign, h]
  · intro h
    simp [Crypto.Sign, Crypto.RSAPSSSign, h]

theorem sign_dispatches_rsa_for_non_ed25519_witness :
    Crypto.Sign sampleExt KeyType.kUnknown false (("bad").toList) []
      = Except.ok ([] : Str)
    ∧ Crypto.Sign sampleExt KeyType.kRSA2048 false (("priv").toList) []
      = Except.ok (Crypto.RSAPSSSign sampleExt false (("priv").toList) []) := by
  constructor
  · exact (sign_dispatches_rsa_for_non_ed25519 sampleExt KeyType.kUnknown false
      (("bad").toList) []).2 (by rfl)
  · exact (sign_dispatches_rsa_for_non_ed25519 sampleExt KeyType.kRSA2048 false
      (("priv").toList) []).1 (by decide)

theorem certSubject_spec (c st o cn : Str) :
    ((("CN").toList, cn) ∈ certSubject c st o cn)
    ∧ (c = [] → ∀ v, (("C").toList, v) ∉ certSubject c st o cn)
    ∧ (c ≠ [] → (("C").toList, c) ∈ certSubject c st o cn)
    ∧ (st = [] → ∀ v, (("ST").toList, v) ∉ certSubject c st o cn)
    ∧ (st ≠ [] → (("ST").toList, st) ∈ certSubject c st o cn)
    ∧ (o = [] → ∀ v, (("O").toList, v) ∉ certSubject c st o cn)
    ∧ (o ≠ [] → (("O").toList, o) ∈ certSubject c st o cn) := by
  have hCST : (("C").toList : Str) ≠ ("ST").toList := by decide
  have hCO : (("C").toList : Str) ≠ ("O").toList := by decide
  have hCCN : (("C").toList : Str) ≠ ("CN").toList := by decide
  have hSTO : (("ST").toList : Str) ≠ ("O").toList := by decide
  have hSTCN : (("ST").toList : Str) ≠ ("CN").toList := by decide
  have hOCN : (("O").toList : Str) ≠ ("CN").toList := by decide
  have hSTC : (("ST").toList : Str) ≠ ("C").toList := by decide
  have hOC : (("O").toList : Str) ≠ ("C").toList := by decide
  have hCNC : (("CN").toList : Str) ≠ ("C").toList := by decide
  have hOST : (("O").toList : Str) ≠ ("ST").toList := by decide
  have hCNST : (("CN").toList : Str) ≠ ("ST").toList := by decide
  have hCNO : (("CN").toList : Str) ≠ ("O").toList := by decide
  refine ⟨?_, ?_, ?_, ?_, ?_, ?_, ?_⟩ <;>
    by_cases hc : c = [] <;> by_cases hst : st = [] <;> by_cases ho : o = [] <;>
      simp_all [certSubject, Prod.ext_iff]

/-- C9: Crypto::generateCert rejects an empty common name — the assert is
modelled as a fatal failure, and no certificate handle is returned on any
path — while empty country, state and organization are legal and simply
leave no corresponding entry in the subject; with a non-empty common
name, a legal key size, and the external OpenSSL calls (subject-entry
addition for the fields actually present, key generation, self-signing)
succeeding on these inputs, the certificate is produced and its subject
holds exactly the non-empty fields. -/
theorem generateCert_requires_common_name :
    ∀ (X : ExtX509) (bits days : Int) (c st o cn : Str) (ss : Bool),
      (cn = [] → ∀ cert, Crypto.generateCert X bits days c st o cn ss ≠ Except.ok cert)
      ∧ (cn ≠ [] → 31 ≤ bits →
          (c ≠ [] → X.addEntryOk (("C").toList) c = true) →
          (st ≠ [] → X.addEntryOk (("ST").toList) st = true) →
          (o ≠ [] → X.addEntryOk (("O").toList) o = true) →
          X.addEntryOk (("CN").toList) cn = true →
          X.keyGenOk bits = true →
          (ss = true → X.signOk = true) →
          ∃ cert, Crypto.generateCert X bits days c st o cn ss = Except.ok cert
            ∧ ((("CN").toList, cn) ∈ cert.subject)
            ∧ (c = [] → ∀ v, (("C").toList, v) ∉ cert.subject)
            ∧ (c ≠ [] → (("C").toList, c) ∈ cert.subject)
            ∧ (st = [] → ∀ v, (("ST").toList, v) ∉ cert.subject)
            ∧ (st ≠ [] → (("ST").toList, st) ∈ cert.subject)
            ∧ (o = [] → ∀ v, (("O").toList, v) ∉ cert.subject)
            ∧ (o ≠ [] → (("O").toList, o) ∈ cert.subject)) := by
  intro X bits days c st o cn ss
  constructor
  · intro h cert
    subst h
    simp only [Crypto.generateCert]
    split_ifs <;> simp_all
  · intro hcn hbits haddC haddST haddO haddCN hkg hsign
    have hb2 : ¬ bits < 31 := not_lt.mpr hbits
    have hC : ¬(c ≠ [] ∧ X.addEntryOk (("C").toList) c = false) := by
      rintro ⟨h1, h2⟩
      rw [haddC h1] at h2
      exact Bool.noConfusion h2
    have hST : ¬(st ≠ [] ∧ X.addEntryOk (("ST").toList) st = false) := by
      rintro ⟨h1, h2⟩
      rw [haddST h1] at h2
      exact Bool.noConfusion h2
    have hO : ¬(o ≠ [] ∧ X.addEntryOk (("O").toList) o = false) := by
      rintro ⟨h1, h2⟩
      rw [haddO h1] at h2
      exact Bool.noConfusion h2
    have hCN2 : ¬(X.addEntryOk (("CN").toList) cn = false) := by
      rw [haddCN]
      exact fun h => Bool.noConfusion h
    have hkg2 : ¬(X.keyGenOk bits = false) := by
      rw [hkg]
      exact fun h => Bool.noConfusion h
    have hsg : ¬(ss = true ∧ X.signOk = false) := by
      rintro ⟨h1, h2⟩
      rw [hsign h1] at h2
      exact Bool.noConfusion h2
    have hok : Crypto.generateCert X bits days c st o cn ss
        = Except.ok { version := 2, subject := certSubject c st o cn,
                      validityDays := days, selfSigned := ss } := by
      simp only [Crypto.generateCert, if_neg hC, if_neg hST, if_neg hO, if_neg hcn,
        if_neg hCN2, if_neg hb2, if_neg hkg2, if_neg hsg]
    obtain ⟨m1, m2, m3, m4, m5, m6, m7⟩ := certSubject_spec c st o cn
    exact ⟨_, hok, m1, m2, m3, m4, m5, m6, m7⟩

/-- C8 (amended): Crypto::IdentifyRSAKeyType returns kUnknown without
throwing when the PEM does not parse, and classifies a parsed key by its
modulus byte length (RSA_size) times 8: byte length 256, 384 and 512 give
kRSA2048, kRSA3072 and kRSA4096 and everything else gives kUnknown.
Exact modulus bit lengths 2048, 3072 and 4096 therefore map to their
variants and 1024 maps to kUnknown, but the classification is not exact
in the bit length (see the counterexample). -/
theorem identifyRSAKeyType_by_byte_size :
    ∀ (E : ExtCrypto) (pem : Str),
      (E.parsePubPEM pem = none → Crypto.IdentifyRSAKeyType E pem = KeyType.kUnknown)
      ∧ ∀ k, E.parsePubPEM pem = some k →
          ((Crypto.IdentifyRSAKeyType E pem = KeyType.kRSA2048 ↔ rsaSize E k = 256)
           ∧ (Crypto.IdentifyRSAKeyType E pem = KeyType.kRSA3072 ↔ rsaSize E k = 384)
           ∧ (Crypto.IdentifyRSAKeyType E pem = KeyType.kRSA4096 ↔ rsaSize E k = 512)
           ∧ (E.rsaBits k = 2048 → Crypto.IdentifyRSAKeyType E pem = KeyType.kRSA2048)
           ∧ (E.rsaBits k = 3072 → Crypto.IdentifyRSAKeyType E pem = KeyType.kRSA3072)
           ∧ (E.rsaBits k = 4096 → Crypto.IdentifyRSAKeyType E pem = KeyType.kRSA4096)
           ∧ (E.rsaBits k = 1024 → Crypto.IdentifyRSAKeyType E pem = KeyType.kUnknown)) := by
  intro E pem
  constructor
  · intro h
    simp [Crypto.IdentifyRSAKeyType, h]
  · intro k hk
    have heq : Crypto.IdentifyRSAKeyType E pem =
        (if rsaSize E k * 8 = 2048 then KeyType.kRSA2048
         else if rsaSize E k * 8 = 3072 then KeyType.kRSA3072
         else if rsaSize E k * 8 = 4096 then KeyType.kRSA4096
         else KeyType.kUnknown) := by
      simp [Crypto.IdentifyRSAKeyType, hk]
    refine ⟨?_, ?_, ?_, ?_, ?_, ?_, ?_⟩
    · rw [heq]
      split_ifs with h1 h2 h3 <;> simp_all <;> omega
    · rw [heq]
      split_ifs with h1 h2 h3 <;> simp_all <;> omega
    · rw [heq]
      split_ifs with h1 h2 h3 <;> simp_all <;> omega
    · intro hb
      have h256 : rsaSize E k = 256 := by simp [rsaSize, hb]
      rw [heq, if_pos (by omega)]
    · intro hb
      have h384 : rsaSize E k = 384 := by simp [rsaSize, hb]
      rw [heq, if_neg (by omega), if_pos (by omega)]
    · intro hb
      have h512 : rsaSize E k = 512 := by simp [rsaSize, hb]
      rw [heq, if_neg (by omega), if_neg (by omega), if_pos (by omega)]
    · intro hb
      have h128 : rsaSize E k = 128 := by simp [rsaSize, hb]
      rw [heq, if_neg (by omega), if_neg (by omega), if_neg (by omega)]

theorem identifyRSAKeyType_byte_size_witness :
    Crypto.IdentifyRSAKeyType sampleExt (("pub").toList) = KeyType.kRSA2048
    ∧ Crypto.IdentifyRSAKeyType sampleExt (("pem1024").toList) = KeyType.kUnknown := by
  constructor
  · exact (((identifyRSAKeyType_by_byte_size sampleExt (("pub").toList)).2 ((2048 : Nat))
      (by rfl)).2.2.2.1) (by rfl)
  · exact (((identifyRSAKeyType_by_byte_size sampleExt (("pem1024").toList)).2 ((1024 : Nat))
      (by rfl)).2.2.2.2.2.2) (by rfl)

/-- C8 (counterexample): a parseable RSA public key whose modulus bit
length is 2047 — not 2048 — is still classified as kRSA2048, because the
code multiplies the modulus byte length (RSA_size) by 8 rather than
inspecting the exact bit length. -/
theorem identifyRSAKeyType_counterexample :
    Crypto.IdentifyRSAKeyType sampleExt (("pem2047").toList) = KeyType.kRSA2048
    ∧ sampleExt.parsePubPEM (("pem2047").toList) = some ((2047 : Nat))
    ∧ sampleExt.rsaBits ((2047 : Nat)) ≠ 2048 := by
  refine ⟨by rfl, by rfl, ?_⟩
  intro h
  have h2 : (2047 : Nat) = 2048 := h
  omega

theorem hashStreamLoop_spec (n : Nat) : ∀ (rem fed : Str) (count : Nat), rem.length ≤ n →
    hashStreamLoop rem fed count = (fed ++ rem, count + rem.length) := by
  induction n with
  | zero =>
    intro rem fed count h
    have h0 : rem = [] := List.eq_nil_of_length_eq_zero (by omega)
    subst h0
    rw [hashStreamLoop]
    simp
  | succ n ih =>
    intro rem fed count h
    rw [hashStreamLoop]
    have hbs : hashBlockSize = 65536 := rfl
    by_cases hg : 0 < min hashBlockSize rem.length
    · rw [dif_pos hg]
      rw [ih _ _ _ (by simp only [List.length_drop]; omega)]
      rw [List.append_assoc, List.take_append_drop]
      simp only [List.length_drop, Prod.mk.injEq, true_and]
      omega
    · rw [dif_neg hg]
      have h0 : rem = [] := by
        refine List.eq_nil_of_length_eq_zero ?_
        omega
      subst h0
      simp

/-- C4: the streaming Hash::generate — which absorbs the stream in fixed
64 KiB blocks and reports the total bytes read — produces exactly the
one-shot Hash::generate of the whole byte sequence, for SHA256 and
SHA512, for every byte sequence (in particular of lengths 0, 1, 65536 and
65537) and for every decomposition of it into chunks: only the
concatenated content reaches the hasher. -/
theorem stream_hash_matches_oneshot :
    ∀ (E : ExtCrypto) (chunks : List Str),
      Hash.generateFromStream E HashType.kSha256 chunks.flatten
        = (Hash.generate E HashType.kSha256 chunks.flatten).map
            (fun h => (h, chunks.flatten.length))
      ∧ Hash.generateFromStream E HashType.kSha512 chunks.flatten
        = (Hash.generate E HashType.kSha512 chunks.flatten).map
            (fun h => (h, chunks.flatten.length)) := by
  intro E chunks
  have hloop := hashStreamLoop_spec chunks.flatten.length chunks.flatten [] 0 (le_refl _)
  constructor
  · simp [Hash.generateFromStream, Hash.generate, hloop, Except.map,
      MultiPartSHA256Hasher.getHash, MultiPartSHA256Hasher.getHexDigest]
  · simp [Hash.generateFromStream, Hash.generate, hloop, Except.map,
      MultiPartSHA512Hasher.getHash, MultiPartSHA512Hasher.getHexDigest]

theorem shortTagLoop_char : ∀ (hs : List Hash) (best : HashType) (res : Str),
    (shortTagLoop hs best res = res ∧ ∀ h ∈ hs, best.toOrd ≤ h.type_.toOrd)
    ∨ (∃ h, h ∈ hs ∧ shortTagLoop hs best res = h.hash_.take 12
        ∧ h.type_.toOrd < best.toOrd
        ∧ ∀ h2 ∈ hs, h.type_.toOrd ≤ h2.type_.toOrd) := by
  intro hs
  induction hs with
  | nil =>
    intro best res
    left
    simp [shortTagLoop]
  | cons i rest ih =>
    intro best res
    by_cases hlt : i.type_.toOrd < best.toOrd
    · rcases ih i.type_ (i.hash_.take 12) with ⟨heq, hall⟩ | ⟨h, hmem, heq, hlt2, hmin⟩
      · right
        refine ⟨i, by simp, by simp [shortTagLoop, hlt, heq], hlt, ?_⟩
        intro h2 hh2
        rcases List.mem_cons.mp hh2 with rfl | hh2
        · exact le_refl _
        · exact hall h2 hh2
      · right
        refine ⟨h, by simp [hmem], by simp [shortTagLoop, hlt, heq], lt_trans hlt2 hlt, ?_⟩
        intro h2 hh2
        rcases List.mem_cons.mp hh2 with rfl | hh2
        · exact le_of_lt hlt2
        · exact hmin h2 hh2
    · rcases ih best res with ⟨heq, hall⟩ | ⟨h, hmem, heq, hlt2, hmin⟩
      · left
        refine ⟨by simp [shortTagLoop, hlt, heq], ?_⟩
        intro h2 hh2
        rcases List.mem_cons.mp hh2 with rfl | hh2
        · exact Nat.not_lt.mp hlt
        · exact hall h2 hh2
      · right
        refine ⟨h, by simp [hmem], by simp [shortTagLoop, hlt, heq], hlt2, ?_⟩
        intro h2 hh2
        rcases List.mem_cons.mp hh2 with rfl | hh2
        · omega
        · exact hmin h2 hh2

theorem hashType_toOrd_le_two (t : HashType) : t.toOrd ≤ 2 := by
  cases t <;> simp [HashType.toOrd]

theorem hashType_toOrd_eq_two (t : HashType) (h : t.toOrd = 2) :
    t = HashType.kUnknownAlgorithm := by
  cases t <;> simp_all [HashType.toOrd]

/-- C5: Hash::shortTag selects the entry whose algorithm has the lowest
ordinal in the enumeration order kSha256, kSha512, kUnknownAlgorithm and
returns the first 12 characters of its digest lower-cased; with one
SHA-256 and one SHA-512 entry in either order it returns the lower-cased
12-character prefix of the SHA-256 digest, and with no known-algorithm
entry it returns the literal string (unknown). -/
theorem shortTag_lowest_ordinal :
    ∀ (hashes : List Hash),
      ((∀ h ∈ hashes, h.type_ = HashType.kUnknownAlgorithm) →
        Hash.shortTag hashes = ("(unknown)").toList)
      ∧ ((∃ h, h ∈ hashes ∧ h.type_ ≠ HashType.kUnknownAlgorithm) →
          ∃ h, h ∈ hashes ∧ (∀ h2 ∈ hashes, h.type_.toOrd ≤ h2.type_.toOrd)
            ∧ Hash.shortTag hashes = toLowerStr (h.hash_.take 12))
      ∧ (∀ h256 h512 : Hash,
          h256.type_ = HashType.kSha256 → h512.type_ = HashType.kSha512 →
          Hash.shortTag [h256, h512] = toLowerStr (h256.hash_.take 12)
          ∧ Hash.shortTag [h512, h256] = toLowerStr (h256.hash_.take 12)) := by
  intro hashes
  refine ⟨?_, ?_, ?_⟩
  · intro hall
    rcases shortTagLoop_char hashes HashType.kUnknownAlgorithm (("(unknown)").toList)
      with ⟨heq, _⟩ | ⟨h, hmem, _, hlt, _⟩
    · rw [Hash.shortTag, heq]
      decide
    · rw [hall h hmem] at hlt
      simp [HashType.toOrd] at hlt
  · intro ⟨h0, hmem0, hne0⟩
    rcases shortTagLoop_char hashes HashType.kUnknownAlgorithm (("(unknown)").toList)
      with ⟨_, hall⟩ | ⟨h, hmem, heq, _, hmin⟩
    · exfalso
      have h2 := hall h0 hmem0
      have h3 := hashType_toOrd_le_two h0.type_
      have h2b : 2 ≤ h0.type_.toOrd := h2
      have h4 : h0.type_.toOrd = 2 := by omega
      exact hne0 (hashType_toOrd_eq_two _ h4)
    · exact ⟨h, hmem, hmin, by rw [Hash.shortTag, heq]⟩
  · intro h256 h512 ht256 ht512
    constructor
    · rw [Hash.shortTag]
      simp [shortTagLoop, ht256, ht512, HashType.toOrd]
    · rw [Hash.shortTag]
      simp [shortTagLoop, ht256, ht512, HashType.toOrd]

theorem shortTag_lowest_ordinal_witness :
    Hash.shortTag [Hash.mk HashType.kSha256 (("ABCDEF0123456789").toList),
                   Hash.mk HashType.kSha512 (("FFFF0000").toList)]
      = ("abcdef012345").toList
    ∧ Hash.shortTag [Hash.mk HashType.kUnknownAlgorithm (("AA").toList)]
      = ("(unknown)").toList := by
  constructor
  · have h := ((shortTag_lowest_ordinal
      [Hash.mk HashType.kSha256 (("ABCDEF0123456789").toList),
       Hash.mk HashType.kSha512 (("FFFF0000").toList)]).2.2
      (Hash.mk HashType.kSha256 (("ABCDEF0123456789").toList))
      (Hash.mk HashType.kSha512 (("FFFF0000").toList)) rfl rfl).1
    rw [h]
    decide
  · exact (shortTag_lowest_ordinal [Hash.mk HashType.kUnknownAlgorithm (("AA").toList)]).1
      (by intro h hm; simp at hm; rw [hm])

theorem fromUptane_mkKeyJson (E : ExtCrypto) (kt v : Str) :
    PublicKey.fromUptaneJson E (mkKeyJson kt v) =
      PublicKey.mk v
        (if toLowerStr kt = ("ed25519").toList then KeyType.kED25519
         else if toLowerStr kt = ("rsa").toList then Crypto.IdentifyRSAKeyType E v
         else KeyType.kUnknown) := by
  rfl

/-- C6: constructing a PublicKey from well-formed Uptane key JSON that
declares an RSA variant (keytype rsa, case-insensitively, with a value
identified as one of the three RSA lengths) or Ed25519, and exporting it
with ToUptane, reproduces the equivalent pair: keytype RSA or ED25519
respectively, and keyval.public equal to the stored value. -/
theorem publicKey_uptane_roundtrip :
    ∀ (E : ExtCrypto) (kt v : Str),
      (toLowerStr kt = ("rsa").toList →
        Crypto.IsRsaKeyType (Crypto.IdentifyRSAKeyType E v) = true →
        (PublicKey.fromUptaneJson E (mkKeyJson kt v)).ToUptane
          = mkKeyJson (("RSA").toList) v)
      ∧ (toLowerStr kt = ("ed25519").toList →
        (PublicKey.fromUptaneJson E (mkKeyJson kt v)).ToUptane
          = mkKeyJson (("ED25519").toList) v) := by
  intro E kt v
  constructor
  · intro hl hrsa
    rw [fromUptane_mkKeyJson]
    rw [hl]
    rw [if_neg (by decide), if_pos rfl]
    cases hid : Crypto.IdentifyRSAKeyType E v
    · rfl
    · rfl
    · rfl
    · rw [hid] at hrsa
      simp [Crypto.IsRsaKeyType] at hrsa
    · rw [hid] at hrsa
      simp [Crypto.IsRsaKeyType] at hrsa
  · intro hl
    rw [fromUptane_mkKeyJson, hl, if_pos rfl]
    rfl

theorem publicKey_uptane_roundtrip_witness :
    (PublicKey.fromUptaneJson sampleExt
        (mkKeyJson (("RSA").toList) (("pub").toList))).ToUptane
      = mkKeyJson (("RSA").toList) (("pub").toList)
    ∧ (PublicKey.fromUptaneJson sampleExt
        (mkKeyJson (("ED25519").toList) samplePkHex)).ToUptane
      = mkKeyJson (("ED25519").toList) samplePkHex := by
  constructor
  · exact (publicKey_uptane_roundtrip sampleExt (("RSA").toList) (("pub").toList)).1
      (by decide) (by rfl)
  · exact (publicKey_uptane_roundtrip sampleExt (("ED25519").toList) samplePkHex).2
      (by decide)

/-- C3 (counterexample): an Ed25519-typed PublicKey whose stored value is
not valid hex makes VerifySignature propagate the boost unhex exception
instead of returning a boolean: the claim that every input yields a
boolean and never throws fails at this input. -/
theorem verifySignature_throws_on_nonhex_key :
    ¬ ∃ b : Bool, PublicKey.VerifySignature sampleExt
        (PublicKey.mk (("zz").toList) KeyType.kED25519) [] [] = Except.ok b := by
  rintro ⟨b, hb⟩
  rw [show PublicKey.VerifySignature sampleExt
      (PublicKey.mk (("zz").toList) KeyType.kED25519) [] []
      = Except.error CryptoErr.hexDecodeError from rfl] at hb
  simp at hb

/-- C3 (amended): VerifySignature fails closed — returning ok false, not
throwing — for an Unknown key type, for every RSA-typed key (in
particular when the PEM does not parse or the raw RSA transform of the
signature fails), and for an Ed25519 key whose stored value decodes as
hex but whose key or signature is too short; the one exception to the
never-throws claim is an Ed25519-typed key whose stored value is not
valid hex, where the boost unhex exception propagates (see the
counterexample). -/
theorem verifySignature_fail_closed_amended :
    ∀ (E : ExtCrypto) (pk : PublicKey) (sig msg : Str),
      (pk.type_ = KeyType.kUnknown →
        PublicKey.VerifySignature E pk sig msg = Except.ok false)
      ∧ (Crypto.IsRsaKeyType pk.type_ = true →
          (∃ b, PublicKey.VerifySignature E pk sig msg = Except.ok b)
          ∧ (E.parsePubPEM pk.value_ = none →
              PublicKey.VerifySignature E pk sig msg = Except.ok false)
          ∧ (∀ k, E.parsePubPEM pk.value_ = some k →
              E.pubDecrypt k (E.fromBase64 sig) = none →
              PublicKey.VerifySignature E pk sig msg = Except.ok false))
      ∧ (pk.type_ = KeyType.kED25519 → ∀ raw, unhex pk.value_ = some raw →
          PublicKey.VerifySignature E pk sig msg
            = Except.ok (Crypto.ED25519Verify E raw (E.fromBase64 sig) msg)
          ∧ (raw.length < cryptoSignPublicKeyBytes ∨
              (E.fromBase64 sig).length < cryptoSignBytes →
              PublicKey.VerifySignature E pk sig msg = Except.ok false)) := by
  intro E pk sig msg
  obtain ⟨val, ty⟩ := pk
  refine ⟨?_, ?_, ?_⟩
  · intro h
    subst h
    rfl
  · intro h
    cases ty <;> simp [Crypto.IsRsaKeyType] at h <;>
      exact ⟨⟨_, rfl⟩,
        fun hp => by simp [PublicKey.VerifySignature, Crypto.RSAPSSVerify, hp],
        fun k hp hd => by simp [PublicKey.VerifySignature, Crypto.RSAPSSVerify, hp, hd]⟩
  · intro h raw hraw
    subst h
    constructor
    · simp [PublicKey.VerifySignature, hraw]
    · intro hlen
      simp [PublicKey.VerifySignature, hraw, Crypto.ED25519Verify, hlen]

theorem verifySignature_fail_closed_amended_witness :
    PublicKey.VerifySignature sampleExt (PublicKey.mk [] KeyType.kUnknown) [] []
      = Except.ok false
    ∧ PublicKey.VerifySignature sampleExt (PublicKey.mk (("nope").toList) KeyType.kRSA2048)
        [] [] = Except.ok false
    ∧ PublicKey.VerifySignature sampleExt (PublicKey.mk (("aa").toList) KeyType.kED25519)
        [] [] = Except.ok false := by
  refine ⟨?_, ?_, ?_⟩
  · exact (verifySignature_fail_closed_amended sampleExt
      (PublicKey.mk [] KeyType.kUnknown) [] []).1 rfl
  · exact ((verifySignature_fail_closed_amended sampleExt
      (PublicKey.mk (("nope").toList) KeyType.kRSA2048) [] []).2.1 rfl).2.1 (by rfl)
  · exact ((verifySignature_fail_closed_amended sampleExt
      (PublicKey.mk (("aa").toList) KeyType.kED25519) [] []).2.2 rfl ['\xaa'] (by rfl)).2
      (by decide)

theorem rsapssVerify_accepts (E : ExtCrypto) (k : E.K) (pub msg : Str)
    (hpub : E.parsePubPEM pub = some k)
    (hinv : ∀ em sig, E.privEncrypt k em = some sig → E.pubDecrypt k sig = some em)
    (hver : ∀ d salt em, E.padAddPSS k d salt = some em → E.verifyPSS k d em (-2) = true) :
    ∀ salt em sig, E.padAddPSS k (E.sha256 msg) salt = some em →
      E.privEncrypt k em = some sig →
      Crypto.RSAPSSVerify E pub sig msg = true := by
  intro salt em sig hpad henc
  simp [Crypto.RSAPSSVerify, hpub, hinv em sig henc, hver _ salt _ hpad]

/-- C2: RSA-PSS signing digests the message with SHA-256 and requests the
maximum salt length (the -1 argument in RSAPSSSign), while verification
recovers the salt length from the signature (the -2 argument in
RSAPSSVerify); consequently, whenever the external PSS padding check
accepts any salt the padder used — the OpenSSL recovered-salt contract —
a signature built over the SHA-256 digest of the message with any salt
length whatsoever passes RSAPSSVerify, and in particular the engine's own
max-salt signature does. -/
theorem rsapss_salt_interop :
    ∀ (E : ExtCrypto) (k : E.K) (pub priv msg : Str),
      E.parsePubPEM pub = some k →
      (∀ em sig, E.privEncrypt k em = some sig → E.pubDecrypt k sig = some em) →
      (∀ d salt em, E.padAddPSS k d salt = some em → E.verifyPSS k d em (-2) = true) →
      (∀ salt em sig, E.padAddPSS k (E.sha256 msg) salt = some em →
          E.privEncrypt k em = some sig →
          Crypto.RSAPSSVerify E pub sig msg = true)
      ∧ (∀ em sig, E.parsePrivPEM priv = some k →
          E.padAddPSS k (E.sha256 msg) (-1) = some em →
          E.privEncrypt k em = some sig →
          Crypto.RSAPSSVerify E pub (Crypto.RSAPSSSign E false priv msg) msg = true) := by
  intro E k pub priv msg hpub hinv hver
  constructor
  · exact rsapssVerify_accepts E k pub msg hpub hinv hver
  · intro em sig hpriv hpad henc
    have hs : Crypto.RSAPSSSign E false priv msg = sig := by
      simp [Crypto.RSAPSSSign, hpriv, hpad, henc]
    rw [hs]
    exact rsapssVerify_accepts E k pub msg hpub hinv hver (-1) em sig hpad henc

theorem rsapss_salt_interop_witness :
    Crypto.RSAPSSVerify sampleExt (("pub").toList) (['E', 'P']) [] = true
    ∧ Crypto.RSAPSSVerify sampleExt (("pub").toList)
        (Crypto.RSAPSSSign sampleExt false (("priv").toList) []) [] = true := by
  have hinv : ∀ em sig, sampleExt.privEncrypt ((2048 : Nat)) em = some sig →
      sampleExt.pubDecrypt ((2048 : Nat)) sig = some em := by
    intro em sig h
    injection h with h2
    subst h2
    rfl
  have hver : ∀ d salt em, sampleExt.padAddPSS ((2048 : Nat)) d salt = some em →
      sampleExt.verifyPSS ((2048 : Nat)) d em (-2) = true := by
    intro d salt em h
    injection h with h2
    subst h2
    simp [sampleExt]
  constructor
  · exact (rsapss_salt_interop sampleExt ((2048 : Nat)) (("pub").toList) (("priv").toList) []
      (by rfl) hinv hver).1 0 (['P']) (['E', 'P']) (by rfl) (by rfl)
  · exact (rsapss_salt_interop sampleExt ((2048 : Nat)) (("pub").toList) (("priv").toList) []
      (by rfl) hinv hver).2 (['P']) (['E', 'P']) (by rfl) (by rfl) (by rfl)

theorem isRsa_ne_ed25519 (kt : KeyType) (h : Crypto.IsRsaKeyType kt = true) :
    kt ≠ KeyType.kED25519 := by
  cases kt <;> simp_all [Crypto.IsRsaKeyType]

/-- C1: for every supported key type — the three RSA variants and
Ed25519 — and every key pair and message, verifying with
PublicKey::VerifySignature the (base64-transported) signature produced by
Crypto::Sign over the message returns true, and verifying that same
signature against any different message returns false.  The Ed25519 key
pair is given as the hex encodings of a raw pair for which the external
detached-verify primitive has the standard correctness and soundness
contract; the RSA pair is given as PEM strings parsing to one key object
whose external PSS primitives have the OpenSSL contracts, with SHA-256
treated as collision-free. -/
theorem sign_verify_roundtrip :
    ∀ (E : ExtCrypto),
      (∀ s, E.fromBase64 (E.toBase64 s) = s) →
      ((∀ (pkHex skHex pkRaw skRaw msg : Str),
        unhex pkHex = some pkRaw →
        unhex skHex = some skRaw →
        pkRaw.length = cryptoSignPublicKeyBytes →
        (E.edSign skRaw msg).length = cryptoSignBytes →
        E.edVerify (E.edSign skRaw msg) msg pkRaw = true →
        (∀ m, m ≠ msg → E.edVerify (E.edSign skRaw msg) m pkRaw = false) →
        ∀ sig, Crypto.Sign E KeyType.kED25519 false skHex msg = Except.ok sig →
          PublicKey.VerifySignature E (PublicKey.mk pkHex KeyType.kED25519)
              (E.toBase64 sig) msg = Except.ok true
          ∧ ∀ m, m ≠ msg →
              PublicKey.VerifySignature E (PublicKey.mk pkHex KeyType.kED25519)
                (E.toBase64 sig) m = Except.ok false)
      ∧ (∀ (kt : KeyType), Crypto.IsRsaKeyType kt = true →
         ∀ (k : E.K) (pub priv msg : Str),
          E.parsePubPEM pub = some k →
          E.parsePrivPEM priv = some k →
          (∀ m m2, E.sha256 m = E.sha256 m2 → m = m2) →
          (∀ em sig, E.privEncrypt k em = some sig → E.pubDecrypt k sig = some em) →
          (∀ d salt em, E.padAddPSS k d salt = some em → E.verifyPSS k d em (-2) = true) →
          (∀ d d2 salt em, E.padAddPSS k d salt = some em → d2 ≠ d →
              E.verifyPSS k d2 em (-2) = false) →
          ∀ em sig0, E.padAddPSS k (E.sha256 msg) (-1) = some em →
            E.privEncrypt k em = some sig0 →
          ∀ s, Crypto.Sign E kt false priv msg = Except.ok s →
            PublicKey.VerifySignature E (PublicKey.mk pub kt) (E.toBase64 s) msg
              = Except.ok true
            ∧ ∀ m, m ≠ msg →
                PublicKey.VerifySignature E (PublicKey.mk pub kt) (E.toBase64 s) m
                  = Except.ok false)) := by
  intro E hb64
  constructor
  · intro pkHex skHex pkRaw skRaw msg hpk hsk hpklen hsiglen hok hbad sig hsig
    have hsig2 : E.edSign skRaw msg = sig := by
      simp [Crypto.Sign, Crypto.ED25519Sign, hsk] at hsig
      exact hsig
    subst hsig2
    constructor
    · simp [PublicKey.VerifySignature, hpk, hb64, Crypto.ED25519Verify,
        hpklen, hsiglen, hok]
    · intro m hm
      simp [PublicKey.VerifySignature, hpk, hb64, Crypto.ED25519Verify,
        hpklen, hsiglen, hbad m hm]
  · intro kt hkt k pub priv msg hpub hpriv hinj hinv hver hsound em sig0 hpad henc s hs
    have hne := isRsa_ne_ed25519 kt hkt
    have hs2 : Crypto.RSAPSSSign E false priv msg = s := by
      have := hs
      rw [Crypto.Sign, if_neg hne] at this
      injection this with h2
    have hs3 : s = sig0 := by
      rw [← hs2]
      simp [Crypto.RSAPSSSign, hpriv, hpad, henc]
    subst hs3
    have hyes : Crypto.RSAPSSVerify E pub s msg = true := by
      simp [Crypto.RSAPSSVerify, hpub, hinv em s henc, hver _ (-1) _ hpad]
    have hno : ∀ m, m ≠ msg → Crypto.RSAPSSVerify E pub s m = false := by
      intro m hm
      have hd2 : E.sha256 m ≠ E.sha256 msg := fun hc => hm (hinj m msg hc)
      simp [Crypto.RSAPSSVerify, hpub, hinv em s henc,
        hsound (E.sha256 msg) (E.sha256 m) (-1) em hpad hd2]
    cases kt
    · exact ⟨by simp [PublicKey.VerifySignature, hb64, hyes],
        fun m hm => by simp [PublicKey.VerifySignature, hb64, hno m hm]⟩
    · exact ⟨by simp [PublicKey.VerifySignature, hb64, hyes],
        fun m hm => by simp [PublicKey.VerifySignature, hb64, hno m hm]⟩
    · exact ⟨by simp [PublicKey.VerifySignature, hb64, hyes],
        fun m hm => by simp [PublicKey.VerifySignature, hb64, hno m hm]⟩
    · simp [Crypto.IsRsaKeyType] at hkt
    · simp [Crypto.IsRsaKeyType] at hkt

theorem sign_verify_roundtrip_witness :
    PublicKey.VerifySignature sampleExt (PublicKey.mk samplePkHex KeyType.kED25519)
        (sampleExt.toBase64 (List.replicate 64 'S')) [] = Except.ok true
    ∧ PublicKey.VerifySignature sampleExt (PublicKey.mk samplePkHex KeyType.kED25519)
        (sampleExt.toBase64 (List.replicate 64 'S')) (['x']) = Except.ok false
    ∧ PublicKey.VerifySignature sampleExt (PublicKey.mk (("pub").toList) KeyType.kRSA2048)
        (sampleExt.toBase64 (['E', 'P'])) [] = Except.ok true
    ∧ PublicKey.VerifySignature sampleExt (PublicKey.mk (("pub").toList) KeyType.kRSA2048)
        (sampleExt.toBase64 (['E', 'P'])) (['x']) = Except.ok false := by
  have hb64 : ∀ s, sampleExt.fromBase64 (sampleExt.toBase64 s) = s := fun _ => rfl
  have hbad : ∀ m, m ≠ ([] : Str) →
      sampleExt.edVerify (sampleExt.edSign sampleSk []) m samplePk = false := by
    intro m hm
    cases m with
    | nil => exact absurd rfl hm
    | cons c cs => rfl
  have hed := (sign_verify_roundtrip sampleExt hb64).1 samplePkHex sampleSkHex samplePk
    sampleSk [] (by decide) (by decide) (by decide) rfl rfl hbad
    (List.replicate 64 'S') (by rfl)
  have hinj : ∀ m m2 : Str, sampleExt.sha256 m = sampleExt.sha256 m2 → m = m2 :=
    fun _ _ h => h
  have hinv : ∀ em sig, sampleExt.privEncrypt ((2048 : Nat)) em = some sig →
      sampleExt.pubDecrypt ((2048 : Nat)) sig = some em := by
    intro em sig h
    injection h with h2
    subst h2
    rfl
  have hver : ∀ d salt em, sampleExt.padAddPSS ((2048 : Nat)) d salt = some em →
      sampleExt.verifyPSS ((2048 : Nat)) d em (-2) = true := by
    intro d salt em h
    injection h with h2
    subst h2
    simp [sampleExt]
  have hsound : ∀ d d2 salt em, sampleExt.padAddPSS ((2048 : Nat)) d salt = some em →
      d2 ≠ d → sampleExt.verifyPSS ((2048 : Nat)) d2 em (-2) = false := by
    intro d d2 salt em hp hne
    injection hp with hp2
    subst hp2
    rw [show sampleExt.verifyPSS ((2048 : Nat)) d2 ('P' :: d) (-2)
        = (('P' :: d : Str) == 'P' :: d2) from rfl]
    rw [beq_eq_false_iff_ne]
    intro hc
    injection hc with hc1 hc2
    exact hne hc2.symm
  have hrsa := (sign_verify_roundtrip sampleExt hb64).2 KeyType.kRSA2048 rfl ((2048 : Nat))
    (("pub").toList) (("priv").toList) [] (by rfl) (by rfl) hinj hinv hver hsound
    (['P']) (['E', 'P']) (by rfl) (by rfl) (['E', 'P']) (by rfl)
  exact ⟨hed.1, hed.2 (['x']) (by decide), hrsa.1, hrsa.2 (['x']) (by decide)⟩

theorem generateCert_requires_common_name_witness :
    Crypto.generateCert sampleX509 2048 365 (("US").toList) (("CA").toList)
        (("Acme").toList) [] true ≠ Except.ok (X509Cert.mk 2 [] 365 true)
    ∧ ∃ cert, Crypto.generateCert sampleX509 2048 365 [] [] [] (("device-123").toList) true
        = Except.ok cert ∧ ((("CN").toList, ("device-123").toList) ∈ cert.subject) := by
  constructor
  · exact (generateCert_requires_common_name sampleX509 2048 365 (("US").toList)
      (("CA").toList) (("Acme").toList) [] true).1 rfl (X509Cert.mk 2 [] 365 true)
  · obtain ⟨cert, hok, hcn, _⟩ := (generateCert_requires_common_name sampleX509 2048 365
      [] [] [] (("device-123").toList) true).2 (by decide) (by decide)
      (fun h => absurd rfl h) (fun h => absurd rfl h) (fun h => absurd rfl h)
      (by decide) (by decide) (fun _ => rfl)
    exact ⟨cert, hok, hcn⟩
